import Mathlib

/-!
Verification development for the Human Protocol job-launcher lifecycle
(`JobService.createJob` / `launchJob` / `getResult` in
`packages/apps/job-launcher/server/src/modules/job/job.service.ts`) and the
reputation-oracle reward filter
(`packages/examples/fortune/reputation-oracle/src/services/rewards.ts`).

The service methods are embedded as pure Lean functions.  External
collaborators (payment ledger balance, exchange-rate feed, object storage,
on-chain escrow client, webhook transport, configuration) are injected as an
explicit environment record; persistent database state (job rows, payment
rows) is threaded explicitly as a `St` value.  Monetary amounts use exact
rational arithmetic (`ℚ`).
-/

namespace HumanProtocol

/-! ## Enumerations (from `common/enums/job.ts` and `common/enums/payment.ts`) -/

/-- Enum `JobStatus` from `common/enums/job.ts`. -/
inductive JobStatus where
  | PENDING
  | PAID
  | LAUNCHED
  | FAILED
  | TO_CANCEL
  | CANCELED
deriving DecidableEq, Repr

/-- Enum `JobRequestType` from `common/enums/job.ts`. -/
inductive JobRequestType where
  | IMAGE_POINTS
  | IMAGE_BOXES
  | FORTUNE
deriving DecidableEq, Repr

/-- Modelled from the spec: `PaymentSource` enum (`common/enums/payment.ts` is
not in the corpus); `createJob` only uses the `BALANCE` member. -/
inductive PaymentSource where
  | BALANCE
  | CRYPTO
  | FIAT
deriving DecidableEq, Repr

/-- Modelled from the spec: `PaymentType` enum (`common/enums/payment.ts` is
not in the corpus); `createJob` only uses the `WITHDRAWAL` member. -/
inductive PaymentType where
  | DEPOSIT
  | REFUND
  | WITHDRAWAL
deriving DecidableEq, Repr

/-- Modelled from the spec: `PaymentStatus` enum (`common/enums/payment.ts` is
not in the corpus); `createJob` only uses the `SUCCEEDED` member. -/
inductive PaymentStatus where
  | PENDING
  | FAILED
  | SUCCEEDED
deriving DecidableEq, Repr

/-- Modelled from the spec: `TokenId` enum; `createJob` only uses `HMT`. -/
inductive TokenId where
  | HMT
deriving DecidableEq, Repr

/-- Modelled from the spec: `Currency` enum; `createJob` only uses `USD`. -/
inductive Currency where
  | USD
deriving DecidableEq, Repr

/-! ## Decimal arithmetic helpers

Modelled from the spec: the helpers `add`, `div`, `lt`, `mul` imported from
`common/utils/decimal` (not in the corpus) are modelled as exact rational
arithmetic, following spec §8 property 1 ("exactly, within decimal precision
used"). -/

/-- Modelled from the spec: exact decimal addition. -/
def add (a b : ℚ) : ℚ := a + b

/-- Modelled from the spec: exact decimal division. -/
def div (a b : ℚ) : ℚ := a / b

/-- Modelled from the spec: exact decimal multiplication. -/
def mul (a b : ℚ) : ℚ := a * b

/-- Modelled from the spec: exact decimal strict comparison. -/
def lt (a b : ℚ) : Bool := decide (a < b)

/-! ## Error model

Each thrown NestJS exception is one `HErr` value: the constructor records the
HTTP class of the exception (`BadRequestException`, `NotFoundException`,
`ConflictException`, `BadGatewayException`) and the `ErrMsg` member records
which error-constant string was thrown (from `common/constants/errors`). -/

/-- The error-constant strings thrown by the job lifecycle, one constructor
per constant (`ErrorJob.*`, `ErrorPayment.*`, `ErrorBucket.*`,
`ErrorEscrow.*`).  `notEnoughFunds` is `ErrorJob.NotEnoughFunds`, the
condition the spec calls InsufficientFunds; `notSuccess` is
`ErrorPayment.NotSuccess`, the condition the spec calls PaymentNotSuccessful. -/
inductive ErrMsg where
  | invalidChainId
  | notEnoughFunds
  | notCreated
  | unableSaveFile
  | incorrectAmount
  | notSuccess
  | escrowNotCreated
  | manifestNotFound
  | manifestValidationFailed
  | webhookWasNotSent
  | jobNotFound
  | resultNotFound
  | resultValidationFailed
deriving DecidableEq, Repr

/-- An exception as observed at the service boundary: HTTP class plus the
error constant. -/
inductive HErr where
  | badRequest (msg : ErrMsg)
  | notFound (msg : ErrMsg)
  | conflict (msg : ErrMsg)
  | badGateway (msg : ErrMsg)
deriving DecidableEq, Repr

/-! ## Persistent rows and database state -/

/-- A job row (`JobEntity`), with the columns `createJob`/`launchJob` read and
write.  `escrowAddress` is nullable and only set by `launchJob`. -/
structure JobEntity where
  id : Nat
  userId : Nat
  chainId : Int
  manifestUrl : String
  manifestHash : String
  fee : ℚ
  fundAmount : ℚ
  status : JobStatus
  escrowAddress : Option String
deriving DecidableEq, Repr

/-- A payment row (`PaymentEntity`) as created by `createJob`'s debit. -/
structure PaymentEntity where
  userId : Nat
  source : PaymentSource
  type : PaymentType
  amount : ℚ
  currency : TokenId
  rate : ℚ
  status : PaymentStatus
deriving DecidableEq, Repr

/-- The database state threaded through a service call: the job table, the
payment table, and the id the next inserted job row receives. -/
structure St where
  jobs : List JobEntity
  payments : List PaymentEntity
  nextJobId : Nat
deriving DecidableEq, Repr

/-! ## Manifest documents -/

/-- A manifest JSON document, covering both shapes of spec §6: the fortune
(reward-task) manifest `{requestType, fundAmount, ...}` and the CVAT
annotation manifest `{data:{data_url}, annotation:{labels[], description,
type, job_size, max_time}, validation:{min_quality, val_size, gt_url},
job_bounty}`.  A field that the JSON document lacks is `none`. -/
structure ManifestDoc where
  requestType : Option JobRequestType
  fundAmount : Option ℚ
  requesterTitle : Option String
  requesterDescription : Option String
  dataUrl : Option String
  labels : Option (List String)
  annotationType : Option JobRequestType
  jobSize : Option Nat
  maxTime : Option Nat
  minQuality : Option ℚ
  valSize : Option Nat
  gtUrl : Option String
  jobBounty : Option String
deriving DecidableEq, Repr

/-- Modelled from the spec: the class-validator schema of `FortuneManifestDto`
(`job.dto.ts` is not in the corpus).  Per spec §6 a fortune manifest is
`{requestType, fundAmount, ...}` with the requester's reward description. -/
def fortuneManifestValid (m : ManifestDoc) : Bool :=
  m.requestType == some JobRequestType.FORTUNE
    && m.fundAmount.isSome
    && m.requesterTitle.isSome
    && m.requesterDescription.isSome

/-- Modelled from the spec: the class-validator schema of `CvatManifestDto`
(`job.dto.ts` is not in the corpus).  Per spec §6 an annotation manifest is
`{data:{data_url}, annotation:{labels[], description, type, job_size,
max_time}, validation:{min_quality, val_size, gt_url}, job_bounty}`. -/
def cvatManifestValid (m : ManifestDoc) : Bool :=
  m.dataUrl.isSome
    && m.labels.isSome
    && m.requesterDescription.isSome
    && m.annotationType.isSome
    && m.jobSize.isSome
    && m.maxTime.isSome
    && m.minQuality.isSome
    && m.valSize.isSome
    && m.gtUrl.isSome
    && m.jobBounty.isSome

/-- Method `JobService.validateManifest` (job.service.ts:295): the schema is selected
by the manifest's declared request type — `FortuneManifestDto` when
`requestType == FORTUNE`, `CvatManifestDto` otherwise — and a validation
failure throws `NotFoundException(ErrorJob.ManifestValidationFailed)`. -/
def validateManifest (m : ManifestDoc) : Except HErr Unit :=
  let ok :=
    if m.requestType == some JobRequestType.FORTUNE then fortuneManifestValid m
    else cvatManifestValid m
  if ok then .ok () else .error (.notFound .manifestValidationFailed)

/-! ## `createJob` (job.service.ts:104-212) -/

/-- The request DTO (`JobFortuneDto | JobCvatDto`).  `chainId` is the optional
`chainId?: number` field: `none` models `undefined`/`null`. -/
inductive JobDto where
  | fortune (chainId : Option Int) (fundAmount : ℚ)
      (requesterTitle requesterDescription : String)
  | cvat (chainId : Option Int) (fundAmount : ℚ)
      (dataUrl : String) (labels : List String)
      (requesterDescription : String) (minQuality : ℚ)
      (gtUrl : String) (jobBounty : String)
deriving DecidableEq, Repr

/-- Destructuring `const \x7b chainId, fundAmount \x7d = dto`. -/
def JobDto.chainId : JobDto → Option Int
  | .fortune c _ _ _ => c
  | .cvat c _ _ _ _ _ _ _ => c

def JobDto.fundAmount : JobDto → ℚ
  | .fortune _ f _ _ => f
  | .cvat _ f _ _ _ _ _ _ => f

/-- JavaScript truthiness of the optional numeric `chainId` as tested by
`if (chainId)`: `undefined`/`null` and `0` are falsy. -/
def chainIdTruthy : Option Int → Bool
  | none => false
  | some c => c != 0

/-- Outcome of `paymentRepository.create` as observed by `createJob`'s
`try/catch`: success, a `QueryFailedError` whose message contains the
postgres numeric-field-overflow text, or any other failure. -/
inductive PaymentOutcome where
  | ok
  | numericOverflow
  | otherFailure
deriving DecidableEq, Repr

/-- The external collaborators of `createJob`, injected as a record: chain-id
validation (`web3Service.validateChainId`), the user's derived balance
(`paymentService.getUserBalance`), the USD→HMT exchange rate (`getRate`), the
configured fee percentage, object-storage upload (`saveManifest`: `none`
models a missing uploaded file), the routing-protocol network selector, the
job-row insert outcome, the payment insert outcome, and the CVAT sizing
configuration. -/
structure CreateEnv where
  validChainId : Int → Bool
  userBalance : ℚ
  rate : ℚ
  feePercentage : ℚ
  uploadResult : Option (String × String)
  selectNetwork : Int
  jobCreateOk : Bool
  paymentOutcome : PaymentOutcome
  cvatJobSize : Nat
  cvatMaxTime : Nat
  cvatValSize : Nat

/-- The manifest document built by `createJob` before upload: the fortune
branch spreads the DTO and overrides `requestType` and
`fundAmount := tokenFundAmount`; the CVAT branch assembles the annotation
manifest from the DTO and configuration. -/
def buildManifest (env : CreateEnv) (requestType : JobRequestType)
    (dto : JobDto) (tokenFundAmount : ℚ) : ManifestDoc :=
  match dto with
  | .fortune _ _ title desc =>
      { requestType := some requestType
        fundAmount := some tokenFundAmount
        requesterTitle := some title
        requesterDescription := some desc
        dataUrl := none, labels := none, annotationType := none
        jobSize := none, maxTime := none, minQuality := none
        valSize := none, gtUrl := none, jobBounty := none }
  | .cvat _ _ dataUrl labels desc minQuality gtUrl jobBounty =>
      { requestType := none
        fundAmount := none
        requesterTitle := none
        requesterDescription := some desc
        dataUrl := some dataUrl
        labels := some labels
        annotationType := some requestType
        jobSize := some env.cvatJobSize
        maxTime := some env.cvatMaxTime
        minQuality := some minQuality
        valSize := some env.cvatValSize
        gtUrl := some gtUrl
        jobBounty := some jobBounty }

/-- Method `JobService.createJob` (job.service.ts:104-212).  Returns the result
(`Except` models thrown exceptions; `.ok` carries the returned job id)
together with the database state at return/throw time. -/
def createJob (env : CreateEnv) (userId : Nat) (requestType : JobRequestType)
    (dto : JobDto) (st : St) : Except HErr Nat × St :=
  let chainId := dto.chainId
  -- `if (chainId) this.web3Service.validateChainId(chainId)`; the throw of
  -- `validateChainId` is modelled from the spec (`web3.service.ts` is not in
  -- the corpus): InvalidChainId is validation-class (spec §7).
  if chainIdTruthy chainId && !env.validChainId (chainId.getD 0) then
    (.error (.badRequest .invalidChainId), st)
  else
    let fundAmount := dto.fundAmount
    let fee := mul (div env.feePercentage 100) fundAmount
    let usdTotalAmount := add fundAmount fee
    if lt env.userBalance usdTotalAmount then
      (.error (.badRequest .notEnoughFunds), st)
    else
      let tokenFundAmount := mul fundAmount env.rate
      let tokenFee := mul fee env.rate
      let tokenTotalAmount := add tokenFundAmount tokenFee
      let _manifest := buildManifest env requestType dto tokenFundAmount
      match env.uploadResult with
      | none => (.error (.badGateway .unableSaveFile), st)
      | some (manifestUrl, manifestHash) =>
        if !env.jobCreateOk then
          (.error (.notFound .notCreated), st)
        else
          let jid := st.nextJobId
          let jobEntity : JobEntity :=
            { id := jid
              userId := userId
              chainId := chainId.getD env.selectNetwork
              manifestUrl := manifestUrl
              manifestHash := manifestHash
              fee := tokenFee
              fundAmount := tokenFundAmount
              status := .PENDING
              escrowAddress := none }
          let st1 : St :=
            { st with jobs := st.jobs ++ [jobEntity], nextJobId := jid + 1 }
          match env.paymentOutcome with
          | .numericOverflow => (.error (.conflict .incorrectAmount), st1)
          | .otherFailure => (.error (.conflict .notSuccess), st1)
          | .ok =>
            let payment : PaymentEntity :=
              { userId := userId
                source := .BALANCE
                type := .WITHDRAWAL
                amount := -tokenTotalAmount
                currency := .HMT
                rate := div 1 env.rate
                status := .SUCCEEDED }
            let st2 : St := { st1 with payments := st1.payments ++ [payment] }
            let st3 : St :=
              { st2 with
                jobs := st2.jobs.map fun j =>
                  if j.id = jid then { j with status := .PAID } else j }
            (.ok jid, st3)

/-! ## `launchJob` (job.service.ts:214-274) -/

/-- Observable side effects of `launchJob` on external systems, in order:
the on-chain `tokenContract.transfer(escrowAddress, fundAmount)` and the
webhook POST of `{escrowAddress, chainId}` to the configured URL. -/
inductive LEvent where
  | transferred (escrowAddress : String) (amount : ℚ)
  | webhookPosted (url : String) (escrowAddress : String) (chainId : Int)
deriving DecidableEq, Repr

/-- External collaborators of `launchJob`: the address returned by
`escrowClient.createAndSetupEscrow` (`none` models `undefined`), the manifest
re-downloaded from `jobEntity.manifestUrl` (`none` models a falsy download),
whether the webhook POST's response body is truthy, and the configured
exchange-oracle webhook URL. -/
structure LaunchEnv where
  escrowAddress : Option String
  manifestDownload : Option ManifestDoc
  webhookAck : Bool
  webhookUrl : String

/-- The outcome of a `launchJob` call: the returned/thrown value, the job row
as last written by `jobEntity.save()` (`none` when the save was never
reached), and the external side effects that occurred. -/
structure LaunchResult where
  result : Except HErr JobEntity
  savedJob : Option JobEntity
  events : List LEvent
deriving Repr

/-- JavaScript truthiness of `escrowAddress` as tested by
`if (!escrowAddress)`: `undefined` and the empty string are falsy. -/
def escrowTruthy : Option String → Bool
  | none => false
  | some s => s != ""

/-- Method `JobService.launchJob` (job.service.ts:214-274): create-and-setup escrow,
re-download and re-validate the manifest, transfer the fund amount on chain,
save the row as LAUNCHED with the escrow address, then — only when the
manifest has a truthy `annotation.type` — POST the webhook and throw
`WebhookWasNotSent` if the response body is falsy. -/
def launchJob (env : LaunchEnv) (jobEntity : JobEntity) : LaunchResult :=
  if !escrowTruthy env.escrowAddress then
    { result := .error (.notFound .escrowNotCreated), savedJob := none
      events := [] }
  else
    let escrowAddress := (env.escrowAddress).getD ""
    match env.manifestDownload with
    | none =>
        { result := .error (.notFound .manifestNotFound), savedJob := none
          events := [] }
    | some manifest =>
      match validateManifest manifest with
      | .error e => { result := .error e, savedJob := none, events := [] }
      | .ok _ =>
        let transferEv := LEvent.transferred escrowAddress jobEntity.fundAmount
        let saved : JobEntity :=
          { jobEntity with
            escrowAddress := some escrowAddress
            status := .LAUNCHED }
        if (manifest.annotationType).isSome then
          let postEv :=
            LEvent.webhookPosted env.webhookUrl escrowAddress saved.chainId
          if env.webhookAck then
            { result := .ok saved, savedJob := some saved
              events := [transferEv, postEv] }
          else
            { result := .error (.notFound .webhookWasNotSent)
              savedJob := some saved
              events := [transferEv, postEv] }
        else
          { result := .ok saved, savedJob := some saved
            events := [transferEv] }

/-! ## `getResult` (job.service.ts:346-404) -/

/-- A final-result JSON document, covering both shapes of spec §6: the
fortune (plain reward submission) final result and the CVAT annotation final
result.  A field the document lacks is `none`. -/
structure ResultDoc where
  exchangeAddress : Option String
  workerAddress : Option String
  solution : Option String
  annotationUrl : Option String
  annotationHash : Option String
deriving DecidableEq, Repr

/-- Modelled from the spec: the class-validator schema of
`FortuneFinalResultDto` (`job.dto.ts` is not in the corpus); a plain reward
submission names the submitting worker and its solution text. -/
def fortuneResultValid (r : ResultDoc) : Bool :=
  r.exchangeAddress.isSome && r.workerAddress.isSome && r.solution.isSome

/-- Modelled from the spec: the class-validator schema of `CvatFinalResultDto`
(`job.dto.ts` is not in the corpus); an annotation submission points at the
uploaded annotations by URL and hash. -/
def cvatResultValid (r : ResultDoc) : Bool :=
  r.annotationUrl.isSome && r.annotationHash.isSome

/-- External collaborators of `getResult`: the results URL returned by
`escrowClient.getResultsUrl` (`none`/`""` are falsy) and the downloaded
result document (`none` models a falsy download). -/
structure ResultEnv where
  finalResultUrl : Option String
  download : Option ResultDoc

/-- Method `JobService.getResult` (job.service.ts:346-404): look up the job by
`{id, userId, status: LAUNCHED}`, fetch the results URL, download the result
document, trial-validate it against both final-result DTOs, and throw
`ResultValidationFailed` only when both validations fail. -/
def getResult (env : ResultEnv) (st : St) (userId : Nat) (jobId : Nat) :
    Except HErr ResultDoc :=
  match st.jobs.find? fun j =>
      j.id == jobId && j.userId == userId && j.status == JobStatus.LAUNCHED with
  | none => .error (.notFound .jobNotFound)
  | some _jobEntity =>
    if !escrowTruthy env.finalResultUrl then
      .error (.notFound .resultNotFound)
    else
      match env.download with
      | none => .error (.notFound .resultNotFound)
      | some result =>
        if !fortuneResultValid result && !cvatResultValid result then
          .error (.notFound .resultValidationFailed)
        else
          .ok result

/-! ## Reputation-oracle reward filter
(`packages/examples/fortune/reputation-oracle/src/services/rewards.ts`) -/

/-- Structure `FortuneEntry` from rewards.ts. -/
structure FortuneEntry where
  worker : String
  fortune : String
deriving DecidableEq, Repr

/-- Structure `ReputationEntry` from rewards.ts. -/
structure ReputationEntry where
  workerAddress : String
  reputation : Int
deriving DecidableEq, Repr

/-- The `forEach` loop of `filterAddressesToReward`: `seen` is the
`tmpHashMap` (the set of fortunes already encountered), `filtered` is
`filteredResults`, `reps` is `reputationValues`; each entry is pushed with
reputation `-1` when its fortune was seen before and `1` otherwise, and only
unseen-fortune entries are retained in `filtered`. -/
def rewardsLoop : List FortuneEntry → List String → List FortuneEntry →
    List ReputationEntry → List FortuneEntry × List ReputationEntry
  | [], _, filtered, reps => (filtered, reps)
  | e :: rest, seen, filtered, reps =>
    if e.fortune ∈ seen then
      rewardsLoop rest seen filtered
        (reps ++ [{ workerAddress := e.worker, reputation := -1 }])
    else
      rewardsLoop rest (e.fortune :: seen) (filtered ++ [e])
        (reps ++ [{ workerAddress := e.worker, reputation := 1 }])

/-- Function `filterAddressesToReward` from rewards.ts.  `toChecksumAddress` injects
`web3.utils.toChecksumAddress`. -/
def filterAddressesToReward (toChecksumAddress : String → String)
    (addressFortunesEntries : List FortuneEntry) :
    List String × List ReputationEntry :=
  let (filteredResults, reputationValues) :=
    rewardsLoop addressFortunesEntries [] [] []
  (filteredResults.map fun f => toChecksumAddress f.worker, reputationValues)

/-! ## Shared concrete fixtures for witness theorems -/

/-- A concrete environment for witness instantiations of the `createJob`
theorems: balance 100 USD, rate 2 HMT/USD, 10% fee, upload and inserts
succeeding. -/
def wEnv : CreateEnv :=
  { validChainId := fun c => c == 80001
    userBalance := 100
    rate := 2
    feePercentage := 10
    uploadResult := some ("http://storage/manifest.json", "qm123")
    selectNetwork := 80001
    jobCreateOk := true
    paymentOutcome := .ok
    cvatJobSize := 10
    cvatMaxTime := 300
    cvatValSize := 2 }

/-- A concrete empty database state for witness instantiations. -/
def wSt : St := { jobs := [], payments := [], nextJobId := 1 }

/-! ## Claim theorems: `createJob` -/

/-- C1: whenever the user's balance is strictly below
`usdTotal = fundAmount + fee`, `createJob` throws
`BadRequestException(ErrorJob.NotEnoughFunds)` (the spec's InsufficientFunds)
and returns the database state unchanged — no Payment record and no Job row
is created, because all persistence happens after the balance check.  The
hypothesis `hchain` restricts to calls that pass the earlier chain-id guard
(an unsupported explicit chain id fails earlier with InvalidChainId). -/
theorem createJob_insufficientFunds
    (env : CreateEnv) (userId : Nat) (requestType : JobRequestType)
    (dto : JobDto) (st : St)
    (hchain : chainIdTruthy dto.chainId = false ∨
      env.validChainId (dto.chainId.getD 0) = true)
    (hbal : lt env.userBalance
      (add dto.fundAmount (mul (div env.feePercentage 100) dto.fundAmount))
        = true) :
    createJob env userId requestType dto st
      = (.error (.badRequest .notEnoughFunds), st) := by
  have hguard : (chainIdTruthy dto.chainId
      && !env.validChainId (dto.chainId.getD 0)) = false := by
    rcases hchain with h | h <;> simp [h]
  simp only [createJob, hguard, hbal, Bool.false_eq_true, if_false, if_true]

/-- Witness for C1: balance 100, `fundAmount = 200`, fee 10% → usdTotal 220;
the call fails with BadRequest NotEnoughFunds and the state is unchanged. -/
theorem createJob_insufficientFunds_witness :
    createJob wEnv 7 .FORTUNE (.fortune none 200 "title" "desc") wSt
      = (.error (.badRequest .notEnoughFunds), wSt) :=
  createJob_insufficientFunds wEnv 7 .FORTUNE
    (.fortune none 200 "title" "desc") wSt (Or.inl rfl)
    (by norm_num [lt, add, mul, div, wEnv, JobDto.fundAmount])

/-- Helper: the PENDING job row inserted by `jobRepository.create` inside
`createJob`, with the token-denominated amounts. -/
def pendingJobRow (env : CreateEnv) (userId : Nat) (dto : JobDto)
    (url hash : String) (jid : Nat) : JobEntity :=
  { id := jid
    userId := userId
    chainId := dto.chainId.getD env.selectNetwork
    manifestUrl := url
    manifestHash := hash
    fee := mul (mul (div env.feePercentage 100) dto.fundAmount) env.rate
    fundAmount := mul dto.fundAmount env.rate
    status := .PENDING
    escrowAddress := none }

/-- Helper: the withdrawal payment row inserted by `paymentRepository.create`
inside `createJob`, debiting the negated token total. -/
def debitPaymentRow (env : CreateEnv) (userId : Nat) (dto : JobDto) :
    PaymentEntity :=
  { userId := userId
    source := .BALANCE
    type := .WITHDRAWAL
    amount := -(add (mul dto.fundAmount env.rate)
      (mul (mul (div env.feePercentage 100) dto.fundAmount) env.rate))
    currency := .HMT
    rate := div 1 env.rate
    status := .SUCCEEDED }

/-- Helper: inversion of a successful `createJob` run.  A run that returns
`.ok jid` returns the fresh row id, requires the payment insert to have
succeeded, and produces exactly the state built by the source: the PENDING
row appended and then marked PAID by the final save, and the withdrawal
payment appended. -/
theorem createJob_ok_inv
    (env : CreateEnv) (userId : Nat) (requestType : JobRequestType)
    (dto : JobDto) (st : St) (jid : Nat) (st' : St)
    (h : createJob env userId requestType dto st = (.ok jid, st')) :
    jid = st.nextJobId ∧ env.paymentOutcome = .ok ∧
    ∃ url hash, env.uploadResult = some (url, hash) ∧
      st' = { jobs := (st.jobs ++
                [pendingJobRow env userId dto url hash st.nextJobId]).map
                (fun j => if j.id = st.nextJobId then
                    { j with status := JobStatus.PAID } else j)
              payments := st.payments ++ [debitPaymentRow env userId dto]
              nextJobId := st.nextJobId + 1 } := by
  simp only [createJob] at h
  split at h
  · simp at h
  · split at h
    · simp at h
    · split at h
      · simp at h
      · rename_i url hash heqUpload
        split at h
        · simp at h
        · split at h
          · simp at h
          · simp at h
          · rename_i heqPay
            rw [Prod.mk.injEq] at h
            obtain ⟨h1, h2⟩ := h
            rw [Except.ok.injEq] at h1
            exact ⟨h1.symm, heqPay, url, hash, heqUpload, h2.symm⟩

/-- C8: `createJob` computes `fee = fundAmount * feePercentage / 100` and
`usdTotal = fundAmount + fee` exactly in rational arithmetic, and a
successful run persists the job row with `fee` and `fundAmount` equal to
those USD amounts multiplied by the fetched exchange rate. -/
theorem createJob_feeArithmetic
    (env : CreateEnv) (userId : Nat) (requestType : JobRequestType)
    (dto : JobDto) (st : St) (jid : Nat) (st' : St)
    (hfund : 0 < dto.fundAmount) (hfee : 0 ≤ env.feePercentage)
    (h : createJob env userId requestType dto st = (.ok jid, st')) :
    mul (div env.feePercentage 100) dto.fundAmount
        = dto.fundAmount * env.feePercentage / 100 ∧
    add dto.fundAmount (mul (div env.feePercentage 100) dto.fundAmount)
        = dto.fundAmount + dto.fundAmount * env.feePercentage / 100 ∧
    ∃ j, j ∈ st'.jobs ∧ j.id = jid ∧
      j.fee = dto.fundAmount * env.feePercentage / 100 * env.rate ∧
      j.fundAmount = dto.fundAmount * env.rate := by
  refine ⟨by unfold mul div; ring, by unfold add mul div; ring, ?_⟩
  obtain ⟨hjid, -, url, hash, -, hst⟩ :=
    createJob_ok_inv env userId requestType dto st jid st' h
  subst hjid
  refine ⟨{ pendingJobRow env userId dto url hash st.nextJobId with
            status := JobStatus.PAID }, ?_, rfl, ?_, ?_⟩
  · rw [hst]
    refine List.mem_map.mpr
      ⟨pendingJobRow env userId dto url hash st.nextJobId,
        List.mem_append_right _ (by simp), ?_⟩
    simp [pendingJobRow]
  · simp only [pendingJobRow]
    unfold mul div; ring
  · simp only [pendingJobRow]
    unfold mul; ring

/-- Witness for C8: the spec §8 scenario — balance 100, `fundAmount = 50`,
`feePercentage = 10`, rate 2: fee 5 USD, usdTotal 55, persisted
`fee = 5 * 2 = 10` and `fundAmount = 50 * 2 = 100` HMT. -/
theorem createJob_feeArithmetic_witness :
    mul (div wEnv.feePercentage 100)
        (JobDto.fortune none 50 "title" "desc").fundAmount
      = (JobDto.fortune none 50 "title" "desc").fundAmount
          * wEnv.feePercentage / 100 ∧
    add (JobDto.fortune none 50 "title" "desc").fundAmount
        (mul (div wEnv.feePercentage 100)
          (JobDto.fortune none 50 "title" "desc").fundAmount)
      = (JobDto.fortune none 50 "title" "desc").fundAmount
          + (JobDto.fortune none 50 "title" "desc").fundAmount
            * wEnv.feePercentage / 100 ∧
    ∃ j, j ∈ (createJob wEnv 7 .FORTUNE
        (.fortune none 50 "title" "desc") wSt).2.jobs ∧
      j.id = 1 ∧
      j.fee = (JobDto.fortune none 50 "title" "desc").fundAmount
          * wEnv.feePercentage / 100 * wEnv.rate ∧
      j.fundAmount = (JobDto.fortune none 50 "title" "desc").fundAmount
          * wEnv.rate :=
  createJob_feeArithmetic wEnv 7 .FORTUNE (.fortune none 50 "title" "desc")
    wSt 1 (createJob wEnv 7 .FORTUNE (.fortune none 50 "title" "desc") wSt).2
    (by norm_num [JobDto.fundAmount]) (by norm_num [wEnv])
    (by norm_num [createJob, wEnv, wSt, chainIdTruthy, lt, add, mul, div,
      JobDto.chainId, JobDto.fundAmount])

/-- C2: a successful `createJob` run ends with the new row PAID and with a
withdrawal Payment record for the same user whose amount is the negated token
total `-(tokenFundAmount + tokenFee)`; and on every non-successful run any
newly persisted job row still has status PENDING (rows are always inserted as
PENDING, and only the final save after a successful debit marks them PAID) —
so there is no path to PAID without the debit Payment record. -/
theorem createJob_pendingThenPaid
    (env : CreateEnv) (userId : Nat) (requestType : JobRequestType)
    (dto : JobDto) (st : St) :
    (∀ jid st', createJob env userId requestType dto st = (.ok jid, st') →
      (∃ j ∈ st'.jobs, j.id = jid ∧ j.status = JobStatus.PAID) ∧
      (∃ p ∈ st'.payments, p.userId = userId ∧
        p.type = PaymentType.WITHDRAWAL ∧
        p.amount = -(add (mul dto.fundAmount env.rate)
          (mul (mul (div env.feePercentage 100) dto.fundAmount) env.rate)))) ∧
    (∀ e st', createJob env userId requestType dto st = (.error e, st') →
      ∀ j ∈ st'.jobs, j ∉ st.jobs → j.status = JobStatus.PENDING) := by
  constructor
  · intro jid st' h
    obtain ⟨hjid, -, url, hash, -, hst⟩ :=
      createJob_ok_inv env userId requestType dto st jid st' h
    subst hjid
    constructor
    · refine ⟨{ pendingJobRow env userId dto url hash st.nextJobId with
                status := JobStatus.PAID }, ?_, rfl, rfl⟩
      rw [hst]
      refine List.mem_map.mpr
        ⟨pendingJobRow env userId dto url hash st.nextJobId,
          List.mem_append_right _ (by simp), ?_⟩
      simp [pendingJobRow]
    · refine ⟨debitPaymentRow env userId dto, ?_, rfl, rfl, rfl⟩
      rw [hst]
      exact List.mem_append_right _ (by simp)
  · intro e st' h j hj hnew
    simp only [createJob] at h
    split at h
    · rw [Prod.mk.injEq] at h
      exact absurd (h.2 ▸ hj) hnew
    · split at h
      · rw [Prod.mk.injEq] at h
        exact absurd (h.2 ▸ hj) hnew
      · split at h
        · rw [Prod.mk.injEq] at h
          exact absurd (h.2 ▸ hj) hnew
        · rename_i url hash heqUpload
          split at h
          · rw [Prod.mk.injEq] at h
            exact absurd (h.2 ▸ hj) hnew
          · split at h
            · rw [Prod.mk.injEq] at h
              rw [← h.2] at hj
              rcases List.mem_append.mp hj with hold | hpend
              · exact absurd hold hnew
              · rw [List.mem_singleton.mp hpend]
            · rw [Prod.mk.injEq] at h
              rw [← h.2] at hj
              rcases List.mem_append.mp hj with hold | hpend
              · exact absurd hold hnew
              · rw [List.mem_singleton.mp hpend]
            · simp at h

/-- Witness for C2: the successful run with balance 100, `fundAmount = 50`,
rate 2 leaves job row 1 PAID and a withdrawal of `-(100 + 10)` HMT. -/
theorem createJob_pendingThenPaid_witness :
    (∃ j ∈ (createJob wEnv 7 .FORTUNE (.fortune none 50 "title" "desc")
        wSt).2.jobs, j.id = 1 ∧ j.status = JobStatus.PAID) ∧
    (∃ p ∈ (createJob wEnv 7 .FORTUNE (.fortune none 50 "title" "desc")
        wSt).2.payments, p.userId = 7 ∧
      p.type = PaymentType.WITHDRAWAL ∧
      p.amount = -(add (mul (JobDto.fortune none 50 "title" "desc").fundAmount
          wEnv.rate)
        (mul (mul (div wEnv.feePercentage 100)
          (JobDto.fortune none 50 "title" "desc").fundAmount) wEnv.rate))) :=
  (createJob_pendingThenPaid wEnv 7 .FORTUNE
      (.fortune none 50 "title" "desc") wSt).1 1
    (createJob wEnv 7 .FORTUNE (.fortune none 50 "title" "desc") wSt).2
    (by norm_num [createJob, wEnv, wSt, chainIdTruthy, lt, add, mul, div,
      JobDto.chainId, JobDto.fundAmount])

/-- C3: when the payment-debit insert fails, `createJob` throws
`ConflictException(ErrorPayment.IncorrectAmount)` if the failure is the
postgres numeric-field-overflow error and
`ConflictException(ErrorPayment.NotSuccess)` otherwise, and the state at the
throw still holds the freshly inserted job row in status PENDING with the
payment table unchanged — no rollback or deletion of the job row. -/
theorem createJob_debitFailure
    (env : CreateEnv) (userId : Nat) (requestType : JobRequestType)
    (dto : JobDto) (st : St) (url hash : String)
    (hchain : chainIdTruthy dto.chainId = false ∨
      env.validChainId (dto.chainId.getD 0) = true)
    (hbal : lt env.userBalance
      (add dto.fundAmount (mul (div env.feePercentage 100) dto.fundAmount))
        = false)
    (hupload : env.uploadResult = some (url, hash))
    (hcreate : env.jobCreateOk = true)
    (hfail : env.paymentOutcome ≠ .ok) :
    createJob env userId requestType dto st =
      (.error (.conflict (if env.paymentOutcome = .numericOverflow
          then .incorrectAmount else .notSuccess)),
        { st with
          jobs := st.jobs ++ [pendingJobRow env userId dto url hash
            st.nextJobId]
          nextJobId := st.nextJobId + 1 }) := by
  have hguard : (chainIdTruthy dto.chainId
      && !env.validChainId (dto.chainId.getD 0)) = false := by
    rcases hchain with h | h <;> simp [h]
  cases hpo : env.paymentOutcome with
  | ok => exact absurd hpo hfail
  | numericOverflow =>
    simp [createJob, hguard, hbal, hupload, hcreate, hpo, pendingJobRow]
  | otherFailure =>
    simp [createJob, hguard, hbal, hupload, hcreate, hpo, pendingJobRow]

/-- Witness for C3: with the debit insert failing by numeric overflow, the
call throws Conflict IncorrectAmount and leaves the PENDING job row in
place. -/
theorem createJob_debitFailure_witness :
    createJob { wEnv with paymentOutcome := .numericOverflow } 7 .FORTUNE
        (.fortune none 50 "title" "desc") wSt =
      (.error (.conflict (if ({ wEnv with
            paymentOutcome := PaymentOutcome.numericOverflow }
            : CreateEnv).paymentOutcome = .numericOverflow
          then .incorrectAmount else .notSuccess)),
        { wSt with
          jobs := wSt.jobs ++ [pendingJobRow
            { wEnv with paymentOutcome := .numericOverflow } 7
            (.fortune none 50 "title" "desc")
            "http://storage/manifest.json" "qm123" wSt.nextJobId]
          nextJobId := wSt.nextJobId + 1 }) :=
  createJob_debitFailure { wEnv with paymentOutcome := .numericOverflow }
    7 .FORTUNE (.fortune none 50 "title" "desc") wSt
    "http://storage/manifest.json" "qm123"
    (Or.inl rfl)
    (by norm_num [lt, add, mul, div, wEnv, JobDto.fundAmount])
    rfl rfl (by simp)

/-- C9: when the caller supplies `chainId = 0`, the truthiness guard
`if (chainId)` skips chain-id validation and the nullish coalescing
`chainId ?? selectNetwork()` still treats `0` as present, so the whole call
is independent of both the chain-id validator and the routing selector, and
any job row it persists carries the unvalidated chain id `0`.  `hfresh` is
the autoincrement invariant that existing rows never carry the next row id. -/
theorem createJob_chainIdZero
    (env : CreateEnv) (userId : Nat) (requestType : JobRequestType)
    (dto : JobDto) (st : St)
    (h0 : dto.chainId = some 0)
    (hfresh : ∀ j ∈ st.jobs, j.id ≠ st.nextJobId) :
    (∀ f n, createJob { env with validChainId := f, selectNetwork := n }
        userId requestType dto st = createJob env userId requestType dto st) ∧
    (∀ j ∈ (createJob env userId requestType dto st).2.jobs,
      j ∉ st.jobs → j.chainId = 0) := by
  constructor
  · intro f n
    simp [createJob, h0, chainIdTruthy]
  · intro j hj hnew
    simp only [createJob] at hj
    split at hj
    · exact absurd hj hnew
    · split at hj
      · exact absurd hj hnew
      · split at hj
        · exact absurd hj hnew
        · rename_i url hash heqUpload
          split at hj
          · exact absurd hj hnew
          · split at hj
            · rcases List.mem_append.mp hj with hold | hpend
              · exact absurd hold hnew
              · rw [List.mem_singleton.mp hpend]; simp [h0]
            · rcases List.mem_append.mp hj with hold | hpend
              · exact absurd hold hnew
              · rw [List.mem_singleton.mp hpend]; simp [h0]
            · rcases List.mem_map.mp hj with ⟨x, hx, hfx⟩
              rcases List.mem_append.mp hx with hold | hpend
              · rw [if_neg (hfresh x hold)] at hfx
                exact absurd (hfx ▸ hold) hnew
              · rw [List.mem_singleton.mp hpend] at hfx
                rw [if_pos rfl] at hfx
                rw [← hfx]
                simp [h0]

/-- Witness for C9: `chainId = 0` with a validator that rejects every chain
id — the call's outcome is unchanged and the persisted row has chain id 0. -/
theorem createJob_chainIdZero_witness :
    (∀ f n, createJob { wEnv with validChainId := f, selectNetwork := n }
        7 .FORTUNE (.fortune (some 0) 50 "title" "desc") wSt
      = createJob wEnv 7 .FORTUNE (.fortune (some 0) 50 "title" "desc") wSt) ∧
    (∀ j ∈ (createJob wEnv 7 .FORTUNE
        (.fortune (some 0) 50 "title" "desc") wSt).2.jobs,
      j ∉ wSt.jobs → j.chainId = 0) :=
  createJob_chainIdZero wEnv 7 .FORTUNE
    (.fortune (some 0) 50 "title" "desc") wSt rfl (by simp [wSt])

/-! ## Claim theorems: `launchJob` -/

/-- Concrete fixtures for the `launchJob` witnesses: a PAID job, a valid
annotation manifest, and an escrow client returning a non-empty address. -/
def wJob : JobEntity :=
  { id := 1
    userId := 7
    chainId := 80001
    manifestUrl := "http://storage/manifest.json"
    manifestHash := "qm123"
    fee := 10
    fundAmount := 100
    status := .PAID
    escrowAddress := none }

/-- A concrete annotation (CVAT) manifest satisfying the annotation schema. -/
def wManifest : ManifestDoc :=
  { requestType := none
    fundAmount := none
    requesterTitle := none
    requesterDescription := some "label cats"
    dataUrl := some "http://storage/data"
    labels := some ["cat"]
    annotationType := some .IMAGE_POINTS
    jobSize := some 10
    maxTime := some 300
    minQuality := some 1
    valSize := some 2
    gtUrl := some "http://storage/gt"
    jobBounty := some "1"
  }

/-- A concrete `launchJob` environment with a truthy escrow address, the
annotation manifest above, and an acknowledging webhook. -/
def wLEnv : LaunchEnv :=
  { escrowAddress := some "0xescrow"
    manifestDownload := some wManifest
    webhookAck := true
    webhookUrl := "http://exchange-oracle/webhook" }

/-- C4: on a PAID job whose re-fetched manifest passes validation and whose
escrow creation returns a non-empty address, `launchJob` saves the row with
the escrow address and status LAUNCHED; the oracle webhook — carrying the
escrow address and chain id — is posted exactly when the manifest is an
annotation-type manifest (truthy `annotation.type`), and since that post
happens after the LAUNCHED save, a missing acknowledgement raises
`WebhookWasNotSent` while the saved row stays LAUNCHED. -/
theorem launchJob_launched
    (env : LaunchEnv) (jobEntity : JobEntity) (addr : String)
    (m : ManifestDoc)
    (hpaid : jobEntity.status = JobStatus.PAID)
    (hesc : env.escrowAddress = some addr) (haddr : addr ≠ "")
    (hman : env.manifestDownload = some m)
    (hvalid : validateManifest m = .ok ()) :
    (launchJob env jobEntity).savedJob
        = some { jobEntity with
            escrowAddress := some addr, status := JobStatus.LAUNCHED } ∧
    ((m.annotationType).isSome = true →
      (launchJob env jobEntity).events
          = [.transferred addr jobEntity.fundAmount,
             .webhookPosted env.webhookUrl addr jobEntity.chainId] ∧
      (env.webhookAck = true →
        (launchJob env jobEntity).result
          = .ok { jobEntity with
              escrowAddress := some addr, status := JobStatus.LAUNCHED }) ∧
      (env.webhookAck = false →
        (launchJob env jobEntity).result
          = .error (.notFound .webhookWasNotSent))) ∧
    (m.annotationType = none →
      (launchJob env jobEntity).events
          = [.transferred addr jobEntity.fundAmount] ∧
      (launchJob env jobEntity).result
        = .ok { jobEntity with
            escrowAddress := some addr, status := JobStatus.LAUNCHED }) := by
  have htr : escrowTruthy env.escrowAddress = true := by
    simp [hesc, escrowTruthy, haddr]
  refine ⟨?_, fun hann => ?_, fun hann => ?_⟩
  · cases hack : env.webhookAck <;>
      cases hann : m.annotationType.isSome <;>
      simp [launchJob, escrowTruthy, haddr, hesc, hman, hvalid, hann, hack]
  · cases hack : env.webhookAck <;>
      simp [launchJob, escrowTruthy, haddr, hesc, hman, hvalid, hann, hack]
  · have hann' : m.annotationType.isSome = false := by simp [hann]
    simp [launchJob, escrowTruthy, haddr, hesc, hman, hvalid, hann']

/-- Witness for C4: launching the PAID fixture job with the valid annotation
manifest saves it LAUNCHED at the escrow address and posts the webhook. -/
theorem launchJob_launched_witness :
    (launchJob wLEnv wJob).savedJob
        = some { wJob with
            escrowAddress := some "0xescrow", status := JobStatus.LAUNCHED } ∧
    (launchJob wLEnv wJob).events
        = [.transferred "0xescrow" wJob.fundAmount,
           .webhookPosted wLEnv.webhookUrl "0xescrow" wJob.chainId] ∧
    (launchJob wLEnv wJob).result
        = .ok { wJob with
            escrowAddress := some "0xescrow", status := JobStatus.LAUNCHED } :=
  have h := launchJob_launched wLEnv wJob "0xescrow" wManifest rfl rfl
    (by decide) rfl rfl
  ⟨h.1, (h.2.1 rfl).1, (h.2.1 rfl).2.1 rfl⟩

/-- C5: when the re-fetched manifest fails the schema selected by its
declared request type (the fortune schema when `requestType == FORTUNE`, the
annotation schema otherwise), `launchJob` throws
`ManifestValidationFailed`, performs no token transfer (no events), and never
saves the job row — its status and escrow address stay untouched. -/
theorem launchJob_manifestInvalid
    (env : LaunchEnv) (jobEntity : JobEntity) (addr : String)
    (m : ManifestDoc)
    (hesc : env.escrowAddress = some addr) (haddr : addr ≠ "")
    (hman : env.manifestDownload = some m)
    (hinvalid : (if m.requestType == some JobRequestType.FORTUNE
        then fortuneManifestValid m else cvatManifestValid m) = false) :
    launchJob env jobEntity =
      { result := .error (.notFound .manifestValidationFailed)
        savedJob := none
        events := [] } := by
  have htr : escrowTruthy env.escrowAddress = true := by
    simp [hesc, escrowTruthy, haddr]
  have hv : validateManifest m
      = .error (.notFound .manifestValidationFailed) := by
    simp only [validateManifest, hinvalid]
    rfl
  simp [launchJob, htr, hesc, hman, hv, escrowTruthy, haddr]

/-- Witness for C5: an annotation manifest with the `labels` field missing
fails validation; `launchJob` throws ManifestValidationFailed with no
transfer and no save. -/
theorem launchJob_manifestInvalid_witness :
    launchJob { wLEnv with
        manifestDownload := some { wManifest with labels := none } } wJob =
      { result := .error (.notFound .manifestValidationFailed)
        savedJob := none
        events := [] } :=
  launchJob_manifestInvalid
    { wLEnv with manifestDownload := some { wManifest with labels := none } }
    wJob "0xescrow" { wManifest with labels := none }
    rfl (by decide) rfl (by rfl)

/-! ## Claim theorems: `getResult` -/

/-- A concrete final-result document matching the fortune shape. -/
def wResult : ResultDoc :=
  { exchangeAddress := some "0xexchange"
    workerAddress := some "0xworker"
    solution := some "forty-two"
    annotationUrl := none
    annotationHash := none }

/-- A concrete `getResult` environment with a results URL but no download. -/
def wREnv : ResultEnv :=
  { finalResultUrl := some "http://storage/results.json"
    download := none }

/-- A concrete `getResult` environment whose download is `wResult`. -/
def wREnvFortune : ResultEnv :=
  { finalResultUrl := some "http://storage/results.json"
    download := some wResult }

/-- A database state holding the fixture job in status LAUNCHED. -/
def wLaunchedSt : St :=
  { jobs := [{ wJob with status := JobStatus.LAUNCHED }]
    payments := []
    nextJobId := 2 }

/-- C6: `getResult` throws `NotFoundException(ErrorJob.NotFound)` exactly
when no job row with the requested id, owned by the requesting user, and in
status LAUNCHED exists — so every job that is not LAUNCHED, and every job
owned by a different user, yields NotFound, and the call proceeds past the
lookup only when such a row exists. -/
theorem getResult_requiresLaunchedOwned
    (env : ResultEnv) (st : St) (userId jobId : Nat) :
    getResult env st userId jobId = .error (.notFound .jobNotFound) ↔
      ¬ ∃ j ∈ st.jobs, j.id = jobId ∧ j.userId = userId ∧
        j.status = JobStatus.LAUNCHED := by
  unfold getResult
  cases hf : st.jobs.find? fun j =>
      j.id == jobId && j.userId == userId
        && j.status == JobStatus.LAUNCHED with
  | none =>
    apply iff_of_true rfl
    rintro ⟨j, hj, hid, huser, hstat⟩
    have := List.find?_eq_none.mp hf j hj
    simp [hid, huser, hstat] at this
  | some j0 =>
    have hj0mem := List.mem_of_find?_eq_some hf
    have hj0p := List.find?_some hf
    simp only [Bool.and_eq_true, beq_iff_eq] at hj0p
    apply iff_of_false
    · intro hres
      repeat' split at hres
      all_goals simp_all
    · intro hn
      exact hn ⟨j0, hj0mem, hj0p.1.1, hj0p.1.2, hj0p.2⟩

/-- Witness for C6: with an empty job table the lookup finds nothing and the
call fails with NotFound. -/
theorem getResult_requiresLaunchedOwned_witness :
    getResult wREnv wSt 7 1 = .error (.notFound .jobNotFound) :=
  (getResult_requiresLaunchedOwned wREnv wSt 7 1).mpr (by simp [wSt])

/-- C7: once a LAUNCHED job owned by the caller exists and the result
document was downloaded, `getResult` throws `ResultValidationFailed` exactly
when the document fails validation against both known result shapes, and
returns the downloaded document as-is when it matches either shape — the
job's original request type is never consulted. -/
theorem getResult_shapeValidation
    (env : ResultEnv) (st : St) (userId jobId : Nat) (u : String)
    (r : ResultDoc) (j : JobEntity)
    (hj : j ∈ st.jobs) (hid : j.id = jobId) (huser : j.userId = userId)
    (hstat : j.status = JobStatus.LAUNCHED)
    (hurl : env.finalResultUrl = some u) (hu : u ≠ "")
    (hdl : env.download = some r) :
    (getResult env st userId jobId
        = .error (.notFound .resultValidationFailed) ↔
      fortuneResultValid r = false ∧ cvatResultValid r = false) ∧
    ((fortuneResultValid r = true ∨ cvatResultValid r = true) →
      getResult env st userId jobId = .ok r) := by
  unfold getResult
  cases hf : st.jobs.find? fun j =>
      j.id == jobId && j.userId == userId
        && j.status == JobStatus.LAUNCHED with
  | none =>
    exfalso
    have := List.find?_eq_none.mp hf j hj
    simp [hid, huser, hstat] at this
  | some j0 =>
    have htr : escrowTruthy env.finalResultUrl = true := by
      simp [hurl, escrowTruthy, hu]
    rcases hfor : fortuneResultValid r with _ | _ <;>
      rcases hcvat : cvatResultValid r with _ | _ <;>
      simp [htr, hdl, hfor, hcvat]

/-- Witness for C7: a document matching the fortune final-result shape is
returned as-is for a LAUNCHED job. -/
theorem getResult_shapeValidation_witness :
    getResult wREnvFortune wLaunchedSt 7 1 = .ok wResult :=
  (getResult_shapeValidation wREnvFortune wLaunchedSt 7 1
      "http://storage/results.json" wResult
      { wJob with status := JobStatus.LAUNCHED }
      (by simp [wLaunchedSt]) rfl rfl rfl rfl (by decide) rfl).2
    (Or.inl rfl)

/-! ## Claim theorems: `filterAddressesToReward` -/

/-- Spec-side reading of the reward filter: the entries retained for reward
are those whose fortune has not been borne by any earlier entry; `seen`
carries the fortunes already encountered in the prefix. -/
def firstBearerEntries : List FortuneEntry → List String → List FortuneEntry
  | [], _ => []
  | e :: rest, seen =>
    if e.fortune ∈ seen then firstBearerEntries rest seen
    else e :: firstBearerEntries rest (e.fortune :: seen)

/-- Helper: the reputation list produced from a suffix of the input, given
the fortunes `seen` in the consumed prefix. -/
def repValues : List FortuneEntry → List String → List ReputationEntry
  | [], _ => []
  | e :: rest, seen =>
    if e.fortune ∈ seen then
      { workerAddress := e.worker, reputation := -1 } :: repValues rest seen
    else
      { workerAddress := e.worker, reputation := 1 }
        :: repValues rest (e.fortune :: seen)

/-- Helper: the loop accumulators only collect `firstBearerEntries` and
`repValues` onto what was already accumulated. -/
theorem rewardsLoop_eq (l : List FortuneEntry) (seen : List String)
    (filtered : List FortuneEntry) (reps : List ReputationEntry) :
    rewardsLoop l seen filtered reps
      = (filtered ++ firstBearerEntries l seen, reps ++ repValues l seen) := by
  induction l generalizing seen filtered reps with
  | nil => simp [rewardsLoop, firstBearerEntries, repValues]
  | cons e rest ih =>
    by_cases h : e.fortune ∈ seen <;>
      simp [rewardsLoop, firstBearerEntries, repValues, h, ih]

/-- Helper: `repValues` yields one reputation entry per input entry. -/
theorem repValues_length (l : List FortuneEntry) (seen : List String) :
    (repValues l seen).length = l.length := by
  induction l generalizing seen with
  | nil => rfl
  | cons e rest ih =>
    by_cases h : e.fortune ∈ seen <;> simp [repValues, h, ih]

/-- Helper: positional characterisation of `repValues` — position `i` holds
the worker of input entry `i` with reputation `-1` exactly when its fortune
was already seen or occurs earlier in the input, else `1`. -/
theorem repValues_get? (l : List FortuneEntry) (seen : List String)
    (i : Nat) (e : FortuneEntry) (h : l.get? i = some e) :
    (repValues l seen).get? i
      = some { workerAddress := e.worker
               reputation := if e.fortune ∈ seen ∨
                   e.fortune ∈ (l.take i).map FortuneEntry.fortune
                 then -1 else 1 } := by
  induction l generalizing seen i with
  | nil => simp at h
  | cons e0 rest ih =>
    cases i with
    | zero =>
      rw [List.get?_cons_zero, Option.some.injEq] at h
      subst h
      by_cases h0 : e0.fortune ∈ seen <;> simp [repValues, h0]
    | succ i =>
      rw [List.get?_cons_succ] at h
      by_cases h0 : e0.fortune ∈ seen
      · have hstep : (repValues (e0 :: rest) seen).get? (i + 1)
            = (repValues rest seen).get? i := by
          simp [repValues, h0]
        rw [hstep, ih seen i h]
        have hiff : (e.fortune ∈ seen ∨
              e.fortune ∈ (rest.take i).map FortuneEntry.fortune) ↔
            (e.fortune ∈ seen ∨
              e.fortune ∈ ((e0 :: rest).take (i + 1)).map
                FortuneEntry.fortune) := by
          simp only [List.take_succ_cons, List.map_cons, List.mem_cons]
          constructor
          · rintro (hs | ht)
            · exact Or.inl hs
            · exact Or.inr (Or.inr ht)
          · rintro (hs | he | ht)
            · exact Or.inl hs
            · exact Or.inl (he ▸ h0)
            · exact Or.inr ht
        rw [if_congr hiff rfl rfl]
      · have hstep : (repValues (e0 :: rest) seen).get? (i + 1)
            = (repValues rest (e0.fortune :: seen)).get? i := by
          simp [repValues, h0]
        rw [hstep, ih (e0.fortune :: seen) i h]
        have hiff : (e.fortune ∈ e0.fortune :: seen ∨
              e.fortune ∈ (rest.take i).map FortuneEntry.fortune) ↔
            (e.fortune ∈ seen ∨
              e.fortune ∈ ((e0 :: rest).take (i + 1)).map
                FortuneEntry.fortune) := by
          simp only [List.take_succ_cons, List.map_cons, List.mem_cons]
          tauto
        rw [if_congr hiff rfl rfl]

/-- C10: `filterAddressesToReward` returns one reputation entry per input
entry, in input order, carrying that entry's worker address with reputation
`+1` when the entry is the first bearer of its fortune and `-1` when an
earlier entry already bore the same fortune; and `workerAddresses` is
exactly the checksummed worker addresses of the retained first-bearer
entries, in input order. -/
theorem filterAddressesToReward_spec
    (toChecksumAddress : String → String) (entries : List FortuneEntry) :
    ((filterAddressesToReward toChecksumAddress entries).2.length
        = entries.length) ∧
    (∀ i e, entries.get? i = some e →
      (filterAddressesToReward toChecksumAddress entries).2.get? i
        = some { workerAddress := e.worker
                 reputation := if e.fortune ∈
                     (entries.take i).map FortuneEntry.fortune
                   then -1 else 1 }) ∧
    ((filterAddressesToReward toChecksumAddress entries).1
        = (firstBearerEntries entries []).map
            fun e => toChecksumAddress e.worker) := by
  simp only [filterAddressesToReward, rewardsLoop_eq, List.nil_append]
  refine ⟨repValues_length entries [], fun i e h => ?_, ?_⟩
  · have hpos := repValues_get? entries [] i e h
    simpa using hpos
  · trivial

/-- Witness for C10: on two entries sharing a fortune followed by a fresh
one, entry 1 gets reputation `-1` and the retained addresses are the
checksummed workers of entries 0 and 2. -/
theorem filterAddressesToReward_spec_witness :
    ((filterAddressesToReward (fun s => String.append "0x" s)
        [{ worker := "a1", fortune := "hello" },
         { worker := "a2", fortune := "hello" },
         { worker := "a3", fortune := "bye" }]).2.get? 1
      = some { workerAddress := "a2", reputation := -1 }) ∧
    ((filterAddressesToReward (fun s => String.append "0x" s)
        [{ worker := "a1", fortune := "hello" },
         { worker := "a2", fortune := "hello" },
         { worker := "a3", fortune := "bye" }]).1
      = ["0xa1", "0xa3"]) := by
  have h := filterAddressesToReward_spec (fun s => String.append "0x" s)
    [{ worker := "a1", fortune := "hello" },
     { worker := "a2", fortune := "hello" },
     { worker := "a3", fortune := "bye" }]
  refine ⟨?_, ?_⟩
  · have h1 := h.2.1 1 { worker := "a2", fortune := "hello" } rfl
    simpa using h1
  · rw [h.2.2]
    rfl

end HumanProtocol